import Mathlib

/-!
# Verification of the VAERS_Interactive signal-detection core

Shallow embedding of the cohort-tabulation / signal-metric / caching pipeline
of the repository (`backend/api/signals.py`, `backend/services/cache.py`,
`backend/services/filters.py`), together with theorems settling the frozen
claims about it.

Conventions:
* Python ints are modelled as `Int` (or `Nat` where the source value is a
  count), Python floats appearing in exact comparisons/cell arithmetic as `ℚ`
  (the float rounding error is irrelevant at the tolerances the claims use);
* Mongo documents are modelled as Lean structures, aggregation pipelines as
  list computations;
* fallible code returns `Except`/`Option`.
-/

/-! ## Signal Metric Engine — `_compute_metrics` (signals.py lines 17-80)

The Wald confidence-interval fields (`prr_ci`, `ror_ci`) involve `log`, `exp`
and `sqrt` on floats; no claim mentions their values, so the embedding keeps
the cells, the continuity-correction decision and the PRR/ROR point estimates
(exact rational counterparts of the float ratios) and omits the CI fields.
-/

/-- Result of `_compute_metrics`.  The early return for degenerate inputs
(`N <= 0` or a negative cell) builds a dict *without* the `"cc_applied"` key;
`ccApplied = none` models that absent key. -/
structure Metrics where
  a : Int
  b : Int
  c : Int
  d : Int
  ccApplied : Option Bool
  prr : Option ℚ
  ror : Option ℚ
  deriving Repr, DecidableEq

/-- `_compute_metrics(N, a, vax_total, sym_total, cc=...)`. -/
def computeMetrics (N a vaxTotal symTotal : Int) (cc : ℚ) : Metrics :=
  let a0 : Int := a
  let b0 : Int := max (vaxTotal - a) 0
  let c0 : Int := max (symTotal - a) 0
  let d0 : Int := max (N - a0 - b0 - c0) 0
  if N ≤ 0 ∨ a0 < 0 ∨ b0 < 0 ∨ c0 < 0 ∨ d0 < 0 then
    { a := a, b := b0, c := c0, d := d0, ccApplied := none, prr := none, ror := none }
  else
    let useCC : Bool :=
      (decide (a0 = 0) || decide (b0 = 0) || decide (c0 = 0) || decide (d0 = 0)) && decide (0 < cc)
    let a1 : ℚ := if useCC then (a0 : ℚ) + cc else (a0 : ℚ)
    let b1 : ℚ := if useCC then (b0 : ℚ) + cc else (b0 : ℚ)
    let c1 : ℚ := if useCC then (c0 : ℚ) + cc else (c0 : ℚ)
    let d1 : ℚ := if useCC then (d0 : ℚ) + cc else (d0 : ℚ)
    let prr : Option ℚ :=
      if 0 < a1 + b1 ∧ 0 < c1 + d1 ∧ 0 < c1 then
        some ((a1 / (a1 + b1)) / (c1 / (c1 + d1)))
      else none
    let ror : Option ℚ :=
      if 0 < a1 ∧ 0 < b1 ∧ 0 < c1 ∧ 0 < d1 then
        some ((a1 / b1) / (c1 / d1))
      else none
    { a := a0, b := b0, c := c0, d := d0, ccApplied := some useCC, prr := prr, ror := ror }

/-- Continuity-correction condition as worded by spec §4.4: "if cc > 0 and any
of {a,b,c,d} equals exactly 0".  (Spec-side definition, for comparison with the
code's decision.) -/
def specAnyZeroCond (a b c d : Int) (cc : ℚ) : Bool :=
  decide (0 < cc) && (decide (a = 0) || decide (b = 0) || decide (c = 0) || decide (d = 0))

/-- Continuity-correction condition as worded by spec §8: "cc > 0 and exactly
one pre-correction cell among {a,b,c,d} is zero".  (Spec-side definition.) -/
def specExactlyOneZeroCond (a b c d : Int) (cc : ℚ) : Bool :=
  decide (0 < cc) &&
    decide (((if a = 0 then 1 else 0) + (if b = 0 then 1 else 0) +
             (if c = 0 then 1 else 0) + (if d = 0 then 1 else 0) : Nat) = 1)

/-! ## Marginal Aggregator and Pair Tabulator
(signals.py `_build_vax_marginals` lines 189-212, `_build_sym_marginals`
lines 215-235, `_build_pairs` lines 238-272)

The Mongo relations are modelled as lists: `vaers_data` contributes only its
`VAERS_ID` values to these pipelines (all other report fields are consumed by
the external filter predicate), `vaers_vax` and `vaers_symptoms` as record
lists.  A `$lookup` + `$unwind` pass is a filtered product, `$group` with
`$sum: 1` is a count. -/

/-- A `vaers_vax` document (fields used by the pipelines). -/
structure VaxRec where
  vaersId : Int
  vaxType : Option String
  vaxManu : Option String
  deriving Repr, DecidableEq

/-- A `vaers_symptoms` document: five coded symptom slots. -/
structure SymRec where
  vaersId : Int
  symptom1 : Option String
  symptom2 : Option String
  symptom3 : Option String
  symptom4 : Option String
  symptom5 : Option String
  deriving Repr, DecidableEq

/-- The join-filter descriptor produced by `build_join_filters`
(`symptom_text` is not consumed by the signals pipelines). -/
structure JoinFilters where
  vaxType : Option String
  vaxManu : Option String
  symptomTerm : Option String
  deriving Repr, DecidableEq

/-- Python truthiness of an optional string (`if vax_type:` etc.): `None` and
`""` are falsy. -/
def pyTruthy : Option String → Bool
  | none => false
  | some s => !(s == "")

/-- The optional `$match` on the unwound vax side: each of `vax_type`,
`vax_manu` is constrained only when the corresponding filter is truthy. -/
def vaxFilterOk (jf : JoinFilters) (t m : Option String) : Bool :=
  (!pyTruthy jf.vaxType || t == jf.vaxType) && (!pyTruthy jf.vaxManu || m == jf.vaxManu)

/-- The `$match` applied to an unwound symptom slot.  The Python dict literal
in the source, written with a duplicate `"$ne"` key, collapses to
`pt != ""` alone (the `$ne: None` entry is overwritten), so null slots are not
filtered out here; the optional `symptom_term` equality uses the stripped
term. -/
def slotFilterOk (jf : JoinFilters) (p : Option String) : Bool :=
  !(p == some "") &&
    (if pyTruthy jf.symptomTerm then p == jf.symptomTerm.map (fun s => s.trim) else true)

/-- The five symptom slots of one `vaers_symptoms` document, as unwound by
`$project` + `$unwind`. -/
def symSlots (s : SymRec) : List (Option String) :=
  [s.symptom1, s.symptom2, s.symptom3, s.symptom4, s.symptom5]

/-- Vax-side contribution of report `i` to group `(kt, km)`: the number of its
`vaers_vax` records passing the `vax_type != null` match and the join filter
and carrying that group key. -/
def docVaxCount (vaxs : List VaxRec) (jf : JoinFilters) (i : Int) (kt km : Option String) : Nat :=
  (vaxs.filter (fun v =>
    v.vaersId == i && v.vaxType.isSome && vaxFilterOk jf v.vaxType v.vaxManu &&
      v.vaxType == kt && v.vaxManu == km)).length

/-- Symptom-side occurrences of slot value `p` among report `i`'s
`vaers_symptoms` records (before the slot `$match`). -/
def docSymOcc (syms : List SymRec) (i : Int) (p : Option String) : Nat :=
  ((syms.filter (fun s => s.vaersId == i)).map (fun s => (symSlots s).count p)).sum

/-- The `$match \x7b"VAERS_ID": \x7b"$in": base_ids\x7d\x7d` stage: the
`vaers_data` documents whose identifier lies in the resolved cohort. -/
def cohortDocs (dataIds baseIds : List Int) : List Int :=
  dataIds.filter (fun i => baseIds.contains i)

/-- `_build_vax_marginals`, per group key: total matching vax records within
the cohort. -/
def vaxMargGroup (dataIds baseIds : List Int) (vaxs : List VaxRec) (jf : JoinFilters)
    (kt km : Option String) : Nat :=
  ((cohortDocs dataIds baseIds).map (fun i => docVaxCount vaxs jf i kt km)).sum

/-- `_build_sym_marginals`, per group key: total occurrences of slot value `p`
within the cohort that pass the slot match. -/
def symMargGroup (dataIds baseIds : List Int) (syms : List SymRec) (jf : JoinFilters)
    (p : Option String) : Nat :=
  if slotFilterOk jf p then
    ((cohortDocs dataIds baseIds).map (fun i => docSymOcc syms i p)).sum
  else 0

/-- `_build_pairs`, per group key `(kt, km, kp)`: within the cohort, each
matching vax record is joined against each matching symptom-slot occurrence,
so report `i` contributes `docVaxCount * docSymOcc`. -/
def pairCount (dataIds baseIds : List Int) (vaxs : List VaxRec) (syms : List SymRec)
    (jf : JoinFilters) (kt km kp : Option String) : Nat :=
  if slotFilterOk jf kp then
    ((cohortDocs dataIds baseIds).map
      (fun i => docVaxCount vaxs jf i kt km * docSymOcc syms i kp)).sum
  else 0

/-- Row lookup `vax_marg.get((vax_type or "", vax_manu or ""), 0)`.  The
Python dict re-keys each group by `(type or "", manu or "")`; the pipeline
guarantees `vax_type != null`, and when no record has a null manufacturer this
re-keying is injective, so the lookup of `(t, m)` is the group
`(some t, some m)`. -/
def vaxTotalLookup (dataIds baseIds : List Int) (vaxs : List VaxRec) (jf : JoinFilters)
    (t m : String) : Nat :=
  vaxMargGroup dataIds baseIds vaxs jf (some t) (some m)

/-- Row lookup `sym_marg.get(pt or "", 0)`: the sym-marginal dict is keyed by
the raw group value, and the string `p` can only name the group `some p`
(a `""` group is excluded by the slot match). -/
def symTotalLookup (dataIds baseIds : List Int) (syms : List SymRec) (jf : JoinFilters)
    (p : String) : Nat :=
  symMargGroup dataIds baseIds syms jf (some p)

/-- One tabulated row's metric computation in `signals.compute()`:
`N = len(base_ids)`, `a` from the pair tabulator, the marginal totals via the
collapsed-key lookups. -/
def rowMetrics (dataIds baseIds : List Int) (vaxs : List VaxRec) (syms : List SymRec)
    (jf : JoinFilters) (kt km kp : Option String) (cc : ℚ) : Metrics :=
  computeMetrics (baseIds.length : Int)
    (pairCount dataIds baseIds vaxs syms jf kt km kp : Int)
    (vaxTotalLookup dataIds baseIds vaxs jf (kt.getD "") (km.getD "") : Int)
    (symTotalLookup dataIds baseIds syms jf (kp.getD "") : Int) cc

/-! ## Request-parameter parsing
(filters.py `_parse_int`/`_parse_float`/`_parse_date_yyyy_mm_dd` lines 11-49,
signals.py parameter extraction lines 304-327)

Python's `str.strip` and the stripping done by `int()`/`float()` are modelled
by `stripChars` (ASCII whitespace); `int(s)`/`float(s)` by char-level parsers
following CPython's accepted grammar (optional sign, digit runs with single
underscores between digits, and for floats an optional fraction, exponent and
the `inf`/`infinity`/`nan` words).  A raising call is an `Except`. -/

/-- `str.strip()` — drop leading and trailing whitespace. -/
def stripChars (cs : List Char) : List Char :=
  ((cs.dropWhile Char.isWhitespace).reverse.dropWhile Char.isWhitespace).reverse

/-- Tail of a digit run: digits, with each underscore followed by a digit. -/
def pyDigitsRest : List Char → Bool
  | [] => true
  | '_' :: rest =>
      match rest with
      | c :: rest2 => c.isDigit && pyDigitsRest rest2
      | [] => false
  | c :: rest => c.isDigit && pyDigitsRest rest

/-- A valid Python digit run: nonempty, starts with a digit, single
underscores only between digits. -/
def pyDigits (cs : List Char) : Bool :=
  match cs with
  | [] => false
  | c :: rest => c.isDigit && pyDigitsRest rest

/-- Numeric value of a digit run, skipping underscores. -/
def digitsVal (cs : List Char) : Nat :=
  cs.foldl (fun acc c => if c == '_' then acc else acc * 10 + (c.toNat - '0'.toNat)) 0

/-- `int(s)` on an already-stripped character list: optional sign then a digit
run. -/
def pyIntChars? (cs : List Char) : Option Int :=
  match cs with
  | '+' :: rest => if pyDigits rest then some ((digitsVal rest : Int)) else none
  | '-' :: rest => if pyDigits rest then some (-(digitsVal rest : Int)) else none
  | _ => if pyDigits cs then some ((digitsVal cs : Int)) else none

/-- `int(s)`: returns the value, or `none` where Python raises `ValueError`. -/
def pyInt? (s : String) : Option Int :=
  pyIntChars? (stripChars s.toList)

/-- Python float values: exact rationals plus the special forms. -/
inductive PyFloat where
  | finite (q : ℚ)
  | inf
  | neginf
  | nan
  deriving Repr, DecidableEq

/-- A mantissa character: digit or separating underscore. -/
def digitOrUnderscore (c : Char) : Bool := c.isDigit || c == '_'

/-- The digits of a run without the underscores. -/
def digitsOnly (cs : List Char) : List Char := cs.filter (fun c => !(c == '_'))

/-- Mantissa of a float literal: `digits [. digits]` or `. digits`
(each present run underscore-valid); returns its value and the rest of the
input. -/
def pyFloatMantissa? (cs : List Char) : Option (ℚ × List Char) :=
  let ip := cs.takeWhile digitOrUnderscore
  let r1 := cs.drop ip.length
  match r1 with
  | '.' :: rest =>
      let fp := rest.takeWhile digitOrUnderscore
      let r2 := rest.drop fp.length
      if (ip.isEmpty || pyDigits ip) && (fp.isEmpty || pyDigits fp) &&
          !(ip.isEmpty && fp.isEmpty) then
        some ((digitsVal ip : ℚ) + (digitsVal fp : ℚ) / (10 : ℚ) ^ (digitsOnly fp).length, r2)
      else none
  | _ => if pyDigits ip then some ((digitsVal ip : ℚ), r1) else none

/-- Exponent part of a float literal (empty, or `e`/`E`, optional sign, digit
run). -/
def pyFloatExp? (cs : List Char) : Option Int :=
  match cs with
  | [] => some 0
  | c :: rest =>
      if c == 'e' || c == 'E' then
        match rest with
        | '+' :: r2 => if pyDigits r2 then some ((digitsVal r2 : Int)) else none
        | '-' :: r2 => if pyDigits r2 then some (-(digitsVal r2 : Int)) else none
        | r2 => if pyDigits r2 then some ((digitsVal r2 : Int)) else none
      else none

/-- An unsigned numeric float literal. -/
def pyFloatNumber? (cs : List Char) : Option ℚ :=
  match pyFloatMantissa? cs with
  | none => none
  | some (mant, rest) =>
      match pyFloatExp? rest with
      | none => none
      | some e => some (mant * (10 : ℚ) ^ e)

/-- A float literal body after the optional sign: the case-insensitive words
`inf`, `infinity`, `nan`, or a numeric literal. -/
def pyFloatSigned? (neg : Bool) (body : List Char) : Option PyFloat :=
  let low := body.map Char.toLower
  if low = "inf".toList ∨ low = "infinity".toList then
    some (if neg then PyFloat.neginf else PyFloat.inf)
  else if low = "nan".toList then some PyFloat.nan
  else
    match pyFloatNumber? body with
    | some q => some (PyFloat.finite (if neg then -q else q))
    | none => none

/-- `float` on an already-stripped character list: optional sign then body. -/
def pyFloatChars? (t : List Char) : Option PyFloat :=
  match t with
  | '+' :: rest => pyFloatSigned? false rest
  | '-' :: rest => pyFloatSigned? true rest
  | rest => pyFloatSigned? false rest

/-- `float(s)`: value, or `none` where Python raises `ValueError`. -/
def pyFloat? (s : String) : Option PyFloat :=
  pyFloatChars? (stripChars s.toList)

/-- Gregorian leap year (as `datetime` uses). -/
def isLeapYear (y : Nat) : Bool := (y % 4 == 0 && !(y % 100 == 0)) || y % 400 == 0

/-- Days in a month. -/
def daysInMonth (y m : Nat) : Nat :=
  if m == 2 then (if isLeapYear y then 29 else 28)
  else if m == 4 || m == 6 || m == 9 || m == 11 then 30
  else 31

/-- Split a character list on `-`. -/
def splitOnDash : List Char → List (List Char)
  | [] => [[]]
  | '-' :: rest => [] :: splitOnDash rest
  | c :: rest =>
      match splitOnDash rest with
      | [] => [[c]]
      | g :: gs => (c :: g) :: gs

/-- `datetime.strptime(s, "%Y-%m-%d")`: `%Y` is exactly four digits, `%m` and
`%d` one or two digits, the whole string must match, and `datetime` validates
the calendar date (year ≥ 1, month 1-12, day within the month). -/
def pyStrptimeYmd? (cs : List Char) : Option (Nat × Nat × Nat) :=
  match splitOnDash cs with
  | [ys, ms, ds] =>
      if ys.length == 4 && ys.all Char.isDigit &&
          (ms.length == 1 || ms.length == 2) && ms.all Char.isDigit &&
          (ds.length == 1 || ds.length == 2) && ds.all Char.isDigit then
        let y := digitsVal ys
        let m := digitsVal ms
        let d := digitsVal ds
        if 1 ≤ y ∧ 1 ≤ m ∧ m ≤ 12 ∧ 1 ≤ d ∧ d ≤ daysInMonth y m then some (y, m, d)
        else none
      else none
  | _ => none

/-- `_parse_int`: `None`/blank → absent; otherwise `int` of the stripped
string, with `ValueError` turned into absent.  (`int` strips again, a no-op on
the stripped list, so the core parser applies directly.) -/
def parse_int (x : Option String) : Option Int :=
  match x with
  | none => none
  | some s =>
      let t := stripChars s.toList
      if t.isEmpty then none else pyIntChars? t

/-- `_parse_float`: liberal float parsing.  (`float` strips again, a no-op on
the stripped list.) -/
def parse_float (x : Option String) : Option PyFloat :=
  match x with
  | none => none
  | some s =>
      let t := stripChars s.toList
      if t.isEmpty then none else pyFloatChars? t

/-- `_parse_date_yyyy_mm_dd`: liberal date parsing. -/
def parse_date_yyyy_mm_dd (x : Option String) : Option (Nat × Nat × Nat) :=
  match x with
  | none => none
  | some s =>
      let t := stripChars s.toList
      if t.isEmpty then none else pyStrptimeYmd? t

/-- The one kind of exception these call sites can raise. -/
inductive PyError where
  | valueError
  deriving Repr, DecidableEq

/-- signals.py lines 305-320: `onset_days_min`/`onset_days_max` — strip, skip
when blank, `float(...)` inside `try/except ValueError: pass` (liberal). -/
def parseOnsetBound (raw : Option String) : Option PyFloat :=
  let t := stripChars (raw.getD "").toList
  if t.isEmpty then none
  else
    match pyFloatChars? t with
    | some v => some v
    | none => none

/-- signals.py line 323: `max(1, int(request.args.get("min_count", "5") or 5))`
— a bare `int(...)` that raises `ValueError` on unparseable non-blank input. -/
def parseMinCount (raw : Option String) : Except PyError Int :=
  let s := raw.getD "5"
  if s == "" then Except.ok (max 1 5)
  else
    match pyInt? s with
    | some n => Except.ok (max 1 n)
    | none => Except.error PyError.valueError

/-- signals.py line 324: `int(request.args.get("min_vax_total", "20") or 20)`. -/
def parseMinVaxTotal (raw : Option String) : Except PyError Int :=
  let s := raw.getD "20"
  if s == "" then Except.ok 20
  else
    match pyInt? s with
    | some n => Except.ok n
    | none => Except.error PyError.valueError

/-- signals.py line 325: `int(request.args.get("min_sym_total", "20") or 20)`. -/
def parseMinSymTotal (raw : Option String) : Except PyError Int :=
  let s := raw.getD "20"
  if s == "" then Except.ok 20
  else
    match pyInt? s with
    | some n => Except.ok n
    | none => Except.error PyError.valueError

/-- signals.py line 326:
`max(10, min(200, int(request.args.get("limit", "50") or 50)))`. -/
def parseLimit (raw : Option String) : Except PyError Int :=
  let s := raw.getD "50"
  if s == "" then Except.ok (max 10 (min 200 50))
  else
    match pyInt? s with
    | some n => Except.ok (max 10 (min 200 n))
    | none => Except.error PyError.valueError

/-- signals.py line 327: `float(request.args.get("cc", "0.5") or 0.5)`. -/
def parseCc (raw : Option String) : Except PyError PyFloat :=
  let s := raw.getD "0.5"
  if s == "" then Except.ok (PyFloat.finite (1/2))
  else
    match pyFloat? s with
    | some v => Except.ok v
    | none => Except.error PyError.valueError

/-! ## TTLCache (cache.py lines 59-209)

The cache object is a structure holding its configuration, its entry dict
(an insertion-ordered association list with unique keys, as a Python dict)
and its stats; the wall clock read by `_now()` is an explicit rational
parameter `t`, one instant per operation (operations are modelled as taking
zero time).  A stored Python value is `Option α`, with `none` standing for
Python `None`; `get` returns `none` both on a miss and for a stored `None`,
exactly as the source returns `None` in both cases.  The per-key locks only
serialize callers; the sequential model composes the serialized critical
sections. -/

/-- One cache entry (`CacheEntry` dataclass). -/
structure CacheEntry (α : Type) where
  expiresAt : ℚ
  value : Option α
  deriving Repr, DecidableEq

/-- `CacheStats` dataclass. -/
structure CacheStats where
  hits : Nat
  misses : Nat
  sets : Nat
  evictedExpired : Nat
  evictedOverflow : Nat
  deriving Repr, DecidableEq

/-- The `TTLCache` object: configuration plus mutable state. -/
structure TTLCache (α : Type) where
  defaultTtl : Int
  maxItems : Int
  enabled : Bool
  store : List (String × CacheEntry α)
  stats : CacheStats
  deriving Repr, DecidableEq

/-- Python dict lookup `store.get(key)`. -/
def lookupKey {β : Type} (k : String) : List (String × β) → Option β
  | [] => none
  | (k', v) :: rest => if k' == k then some v else lookupKey k rest

/-- Python dict assignment `store[key] = v`: replaces in place when the key
exists (keeping its dict position), appends otherwise. -/
def dictInsert {β : Type} (k : String) (v : β) : List (String × β) → List (String × β)
  | [] => [(k, v)]
  | (k', v') :: rest => if k' == k then (k, v) :: rest else (k', v') :: dictInsert k v rest

/-- The entries kept by `_evict_expired_locked`: `expires_at > t`. -/
def evictExpiredList {α : Type} (t : ℚ) (store : List (String × CacheEntry α)) :
    List (String × CacheEntry α) :=
  store.filter (fun e => !decide (e.2.expiresAt ≤ t))

/-- `_evict_expired_locked`. -/
def evictExpired {α : Type} (t : ℚ) (c : TTLCache α) : TTLCache α :=
  { c with
      store := evictExpiredList t c.store,
      stats := { c.stats with
        evictedExpired := c.stats.evictedExpired +
          (c.store.filter (fun e => decide (e.2.expiresAt ≤ t))).length } }

/-- The comparison key of `sorted(self._store.items(), key=lambda kv:
kv[1].expires_at)`. -/
def entryLE {α : Type} (e₁ e₂ : String × CacheEntry α) : Prop :=
  e₁.2.expiresAt ≤ e₂.2.expiresAt

instance {α : Type} : DecidableRel (entryLE (α := α)) :=
  fun e₁ e₂ => inferInstanceAs (Decidable (e₁.2.expiresAt ≤ e₂.2.expiresAt))

instance {α : Type} : IsTotal (String × CacheEntry α) entryLE :=
  ⟨fun a b => le_total a.2.expiresAt b.2.expiresAt⟩

instance {α : Type} : IsTrans (String × CacheEntry α) entryLE :=
  ⟨fun _ _ _ h₁ h₂ => le_trans h₁ h₂⟩

/-- `_evict_overflow_locked`: when over capacity, stably sort the items by
expiry and pop the first `len - max_items` keys from the dict (survivors keep
their dict order). -/
def evictOverflow {α : Type} (c : TTLCache α) : TTLCache α :=
  if (c.store.length : Int) ≤ c.maxItems then c
  else
    let sorted := List.insertionSort entryLE c.store
    let over := c.store.length - c.maxItems.toNat
    let victims := (sorted.take over).map Prod.fst
    { c with
        store := c.store.filter (fun e => !victims.contains e.1),
        stats := { c.stats with evictedOverflow := c.stats.evictedOverflow + over } }

/-- `TTLCache.get`: lazily evict expired entries, then return the stored value
(the second expiry test in the source is unreachable after the eviction but is
kept).  Returns the value paired with the updated cache. -/
def cacheGet {α : Type} (t : ℚ) (key : String) (c : TTLCache α) :
    Option α × TTLCache α :=
  if !c.enabled then (none, c)
  else
    let c1 := evictExpired t c
    match lookupKey key c1.store with
    | none => (none, { c1 with stats := { c1.stats with misses := c1.stats.misses + 1 } })
    | some ent =>
        if ent.expiresAt ≤ t then
          (none, { c1 with
            store := c1.store.filter (fun e => !(e.1 == key)),
            stats := { c1.stats with misses := c1.stats.misses + 1 } })
        else
          (ent.value, { c1 with stats := { c1.stats with hits := c1.stats.hits + 1 } })

/-- `TTLCache.set`: evict expired entries, store the entry with
`expires_at = now + ttl`, then evict overflow. -/
def cacheSet {α : Type} (t : ℚ) (key : String) (v : Option α) (ttlSeconds : Option Int)
    (c : TTLCache α) : TTLCache α :=
  if !c.enabled then c
  else
    let ttl := match ttlSeconds with
      | none => c.defaultTtl
      | some n => n
    let c1 := evictExpired t c
    let c2 := { c1 with
      store := dictInsert key ⟨t + (ttl : ℚ), v⟩ c1.store,
      stats := { c1.stats with sets := c1.stats.sets + 1 } }
    evictOverflow c2

/-- Outcome of one `get_or_set` call: the value returned or exception raised,
the cache afterwards, and how many times this caller ran `compute`. -/
structure GetOrSetResult (ε α : Type) where
  result : Except ε (Option α)
  cache : TTLCache α
  computeRuns : Nat

/-- `TTLCache.get_or_set`: get; on miss take the per-key lock, get again, and
only then compute and store.  `compute`'s behaviour is its returned value or
raised exception (`Except`); an exception propagates with no `set`. -/
def getOrSet {α ε : Type} (t : ℚ) (key : String) (compute : Except ε (Option α))
    (ttlSeconds : Option Int) (c : TTLCache α) : GetOrSetResult ε α :=
  let g1 := cacheGet t key c
  match g1.1 with
  | some v => ⟨Except.ok (some v), g1.2, 0⟩
  | none =>
      let g2 := cacheGet t key g1.2
      match g2.1 with
      | some v => ⟨Except.ok (some v), g2.2, 0⟩
      | none =>
          match compute with
          | Except.error e => ⟨Except.error e, g2.2, 1⟩
          | Except.ok v => ⟨Except.ok v, cacheSet t key v ttlSeconds g2.2, 1⟩

/-! ## `stable_hash` (cache.py lines 17-23)

`stable_hash(obj)` is `sha256(json.dumps(obj, sort_keys=True,
separators=(",", ":"), default=str).encode()).hexdigest()`.  JSON-serializable
values are the `Json` type (numbers restricted to ints — the claims concern
key ordering, not float formatting).  `json.dumps` with `sort_keys=True` is
factored as a recursive key-sort (`canonJson`) followed by the compact
serializer (`dumps`); the SHA-256 hexdigest is an arbitrary function `digest`
of the serialized text, which is all the digest-equality claims need. -/

/-- A JSON-serializable value. -/
inductive Json where
  | null
  | bool (b : Bool)
  | int (n : Int)
  | str (s : String)
  | arr (xs : List Json)
  | obj (kvs : List (String × Json))

/-- The `sort_keys=True` comparison: by key. -/
def keyLE (a b : String × Json) : Prop := a.1 ≤ b.1

instance : DecidableRel keyLE := fun a b => inferInstanceAs (Decidable (a.1 ≤ b.1))

instance : IsTotal (String × Json) keyLE := ⟨fun a b => le_total a.1 b.1⟩

instance : IsTrans (String × Json) keyLE := ⟨fun _ _ _ h₁ h₂ => le_trans h₁ h₂⟩

/-- Strict key order (proof device for uniqueness of the sorted form). -/
def keyLT (a b : String × Json) : Prop := a.1 < b.1

instance : IsAntisymm (String × Json) keyLT :=
  ⟨fun _ _ h₁ h₂ => absurd (lt_trans h₁ h₂) (lt_irrefl _)⟩

/-- Recursively sort every object's entries by key. -/
def canonJson : Json → Json
  | Json.null => Json.null
  | Json.bool b => Json.bool b
  | Json.int n => Json.int n
  | Json.str s => Json.str s
  | Json.arr xs => Json.arr (xs.attach.map (fun x => canonJson x.1))
  | Json.obj kvs =>
      Json.obj (List.insertionSort keyLE
        (kvs.attach.map (fun kv => (kv.1.1, canonJson kv.1.2))))
decreasing_by
  · have := List.sizeOf_lt_of_mem x.2
    simp only [Json.arr.sizeOf_spec]
    omega
  · have h1 := List.sizeOf_lt_of_mem kv.2
    have h2 : sizeOf kv.1.2 < sizeOf kv.1 := by
      obtain ⟨⟨k, v⟩, hk⟩ := kv
      simp
    simp only [Json.obj.sizeOf_spec]
    omega

/-- One hex digit, lowercase (as Python's `\uXXXX` escapes). -/
def hexDigit (n : Nat) : Char :=
  if n < 10 then Char.ofNat (48 + n) else Char.ofNat (97 + (n - 10))

/-- `json.dumps` escaping of one character (`ensure_ascii=True`): the special
two-character escapes, `\uXXXX` for other control or non-ASCII code points
(astral code points, which CPython writes as surrogate pairs, are modelled as
one `\uXXXX` group), the character itself otherwise. -/
def escapeChar (c : Char) : List Char :=
  if c = '"' then ['\\', '"']
  else if c = '\\' then ['\\', '\\']
  else if c = '\n' then ['\\', 'n']
  else if c = '\t' then ['\\', 't']
  else if c = '\r' then ['\\', 'r']
  else if c.toNat = 8 then ['\\', 'b']
  else if c.toNat = 12 then ['\\', 'f']
  else if c.toNat < 32 ∨ 126 < c.toNat then
    ['\\', 'u', hexDigit (c.toNat / 4096 % 16), hexDigit (c.toNat / 256 % 16),
      hexDigit (c.toNat / 16 % 16), hexDigit (c.toNat % 16)]
  else [c]

/-- Escape a string body. -/
def escapeString (s : String) : String :=
  String.mk (s.toList.map escapeChar).flatten

/-- Compact serialization with `separators=(",", ":")` (object entries in
list order; `stable_hash` sorts them first via `canonJson`). -/
def dumps : Json → String
  | Json.null => "null"
  | Json.bool true => "true"
  | Json.bool false => "false"
  | Json.int n => toString n
  | Json.str s => "\"" ++ escapeString s ++ "\""
  | Json.arr xs => "[" ++ String.intercalate "," (xs.attach.map (fun x => dumps x.1)) ++ "]"
  | Json.obj kvs =>
      "\x7b" ++ String.intercalate ","
        (kvs.attach.map (fun kv => "\"" ++ escapeString kv.1.1 ++ "\":" ++ dumps kv.1.2)) ++
      "\x7d"
decreasing_by
  · have := List.sizeOf_lt_of_mem x.2
    simp only [Json.arr.sizeOf_spec]
    omega
  · have h1 := List.sizeOf_lt_of_mem kv.2
    have h2 : sizeOf kv.1.2 < sizeOf kv.1 := by
      obtain ⟨⟨k, v⟩, hk⟩ := kv
      simp
    simp only [Json.obj.sizeOf_spec]
    omega

/-- `stable_hash`, with the digest (sha256 hexdigest of the UTF-8 bytes) as an
abstract function of the canonical serialization. -/
def stable_hash (digest : String → String) (j : Json) : String :=
  digest (dumps (canonJson j))

/-- Well-formed JSON values: every object has pairwise-distinct keys (as any
value serialized from Python dicts does). -/
inductive JsonWF : Json → Prop where
  | null : JsonWF Json.null
  | bool (b : Bool) : JsonWF (Json.bool b)
  | int (n : Int) : JsonWF (Json.int n)
  | str (s : String) : JsonWF (Json.str s)
  | arr {xs : List Json} : (∀ x ∈ xs, JsonWF x) → JsonWF (Json.arr xs)
  | obj {kvs : List (String × Json)} : ((kvs.map Prod.fst).Nodup) →
      (∀ kv ∈ kvs, JsonWF kv.2) → JsonWF (Json.obj kvs)

/-- Logical equality of JSON values as mappings: equal scalars, pointwise
equivalent arrays, and objects with the same keys — in any order — carrying
equivalent values (`objCons` inserts the head entry anywhere on the right,
as the list-permutation characterization). -/
inductive JEquiv : Json → Json → Prop where
  | null : JEquiv Json.null Json.null
  | bool (b : Bool) : JEquiv (Json.bool b) (Json.bool b)
  | int (n : Int) : JEquiv (Json.int n) (Json.int n)
  | str (s : String) : JEquiv (Json.str s) (Json.str s)
  | arrNil : JEquiv (Json.arr []) (Json.arr [])
  | arrCons {x y : Json} {xs ys : List Json} : JEquiv x y →
      JEquiv (Json.arr xs) (Json.arr ys) → JEquiv (Json.arr (x :: xs)) (Json.arr (y :: ys))
  | objNil : JEquiv (Json.obj []) (Json.obj [])
  | objCons {k : String} {v₁ v₂ : Json} {kvs l₁ l₂ : List (String × Json)} :
      JEquiv v₁ v₂ → JEquiv (Json.obj kvs) (Json.obj (l₁ ++ l₂)) →
      JEquiv (Json.obj ((k, v₁) :: kvs)) (Json.obj (l₁ ++ (k, v₂) :: l₂))

/-! ## Theorems -/

/-- C3 counterexample: at `N = 10, a = 0, vax_total = 0, sym_total = 5,
cc = 1/2` the pre-correction cells are `(0, 0, 5, 5)` — two zero cells — so the
§4.4 condition (any zero) and the §8 condition (exactly one zero) disagree, and
the code applies the correction (matching §4.4, contradicting §8).  Hence the
code's `cc_applied` decision cannot agree with "the spec's condition" as stated
in both places. -/
theorem c3_cc_condition_counterexample :
    (computeMetrics 10 0 0 5 (1/2)).ccApplied = some true ∧
    specAnyZeroCond 0 0 5 5 (1/2) = true ∧
    specExactlyOneZeroCond 0 0 5 5 (1/2) = false := by
  refine ⟨?_, ?_, ?_⟩ <;> simp only [computeMetrics, specAnyZeroCond, specExactlyOneZeroCond] <;>
    norm_num

/-- C3 amended: for every input reaching the non-degenerate branch
(`N > 0`, `a ≥ 0`), the code's `cc_applied` decision equals spec §4.4's
condition — cc > 0 and at least one pre-correction cell zero — evaluated on the
clamped cells; §8's "exactly one zero" wording is not what the code implements. -/
theorem c3_cc_applied_matches_sec44 (N a vaxTotal symTotal : Int) (cc : ℚ)
    (hN : 0 < N) (ha : 0 ≤ a) :
    (computeMetrics N a vaxTotal symTotal cc).ccApplied =
      some (specAnyZeroCond a (max (vaxTotal - a) 0) (max (symTotal - a) 0)
        (max (N - a - max (vaxTotal - a) 0 - max (symTotal - a) 0) 0) cc) := by
  have hguard : ¬(N ≤ 0 ∨ a < 0 ∨ max (vaxTotal - a) 0 < 0 ∨ max (symTotal - a) 0 < 0 ∨
      max (N - a - max (vaxTotal - a) 0 - max (symTotal - a) 0) 0 < 0) := by
    push_neg
    refine ⟨by omega, by omega, le_max_right _ _, le_max_right _ _, le_max_right _ _⟩
  simp only [computeMetrics, specAnyZeroCond, hguard, if_false, Option.some.injEq]
  exact Bool.and_comm _ _

/-- Witness for `c3_cc_applied_matches_sec44` at `N = 5, a = 1,
vax_total = 2, sym_total = 2, cc = 1/2`. -/
theorem c3_cc_applied_matches_sec44_witness :
    (computeMetrics 5 1 2 2 (1/2)).ccApplied =
      some (specAnyZeroCond 1 (max ((2 : Int) - 1) 0) (max ((2 : Int) - 1) 0)
        (max ((5 : Int) - 1 - max ((2 : Int) - 1) 0 - max ((2 : Int) - 1) 0) 0) (1/2)) :=
  c3_cc_applied_matches_sec44 5 1 2 2 (1/2) (by decide) (by decide)

/-- The four cells returned by `_compute_metrics`, in both branches. -/
theorem computeMetrics_cells (N a vt st : Int) (cc : ℚ) :
    (computeMetrics N a vt st cc).a = a ∧
    (computeMetrics N a vt st cc).b = max (vt - a) 0 ∧
    (computeMetrics N a vt st cc).c = max (st - a) 0 ∧
    (computeMetrics N a vt st cc).d =
      max (N - a - max (vt - a) 0 - max (st - a) 0) 0 := by
  dsimp only [computeMetrics]
  split <;> simp

/-- C1 counterexample: the cohort `[1]` (so `N = 1`) whose single report has
one vax record `(X, M)` and one symptom record repeating term `H` in two
slots.  The tabulators give `a = 2, vax_total = 1, sym_total = 2`, and the
metric computation produces cells `(2, 0, 0, 0)` whose sum is `2 ≠ N`. -/
theorem c1_cell_sum_counterexample :
    (rowMetrics [1] [1] [⟨1, some "X", some "M"⟩]
        [⟨1, some "H", some "H", none, none, none⟩] ⟨none, none, none⟩
        (some "X") (some "M") (some "H") 1).a +
      (rowMetrics [1] [1] [⟨1, some "X", some "M"⟩]
        [⟨1, some "H", some "H", none, none, none⟩] ⟨none, none, none⟩
        (some "X") (some "M") (some "H") 1).b +
      (rowMetrics [1] [1] [⟨1, some "X", some "M"⟩]
        [⟨1, some "H", some "H", none, none, none⟩] ⟨none, none, none⟩
        (some "X") (some "M") (some "H") 1).c +
      (rowMetrics [1] [1] [⟨1, some "X", some "M"⟩]
        [⟨1, some "H", some "H", none, none, none⟩] ⟨none, none, none⟩
        (some "X") (some "M") (some "H") 1).d = 2 ∧
    (([1] : List Int).length : Int) = 1 := by
  decide

/-- C1 amended: for every dataset, cohort and tabulated key, the four cells
satisfy `a + b + c + d = max N (a + b + c)`; in particular the sum equals `N`
exactly when `a + b + c ≤ N`, and exceeds `N` otherwise (which happens when
reports contribute multiple vaccine records or repeated symptom occurrences,
since marginals count occurrences). -/
theorem c1_cell_sum_amended (dataIds baseIds : List Int) (vaxs : List VaxRec)
    (syms : List SymRec) (jf : JoinFilters) (kt km kp : Option String) (cc : ℚ) :
    (rowMetrics dataIds baseIds vaxs syms jf kt km kp cc).a +
      (rowMetrics dataIds baseIds vaxs syms jf kt km kp cc).b +
      (rowMetrics dataIds baseIds vaxs syms jf kt km kp cc).c +
      (rowMetrics dataIds baseIds vaxs syms jf kt km kp cc).d =
      max (baseIds.length : Int)
        ((rowMetrics dataIds baseIds vaxs syms jf kt km kp cc).a +
          (rowMetrics dataIds baseIds vaxs syms jf kt km kp cc).b +
          (rowMetrics dataIds baseIds vaxs syms jf kt km kp cc).c) ∧
    ((rowMetrics dataIds baseIds vaxs syms jf kt km kp cc).a +
        (rowMetrics dataIds baseIds vaxs syms jf kt km kp cc).b +
        (rowMetrics dataIds baseIds vaxs syms jf kt km kp cc).c +
        (rowMetrics dataIds baseIds vaxs syms jf kt km kp cc).d =
        (baseIds.length : Int) ↔
      (rowMetrics dataIds baseIds vaxs syms jf kt km kp cc).a +
          (rowMetrics dataIds baseIds vaxs syms jf kt km kp cc).b +
          (rowMetrics dataIds baseIds vaxs syms jf kt km kp cc).c ≤
        (baseIds.length : Int)) := by
  unfold rowMetrics
  obtain ⟨ha, hb, hc, hd⟩ := computeMetrics_cells (baseIds.length : Int)
    (pairCount dataIds baseIds vaxs syms jf kt km kp : Int)
    (vaxTotalLookup dataIds baseIds vaxs jf (kt.getD "") (km.getD "") : Int)
    (symTotalLookup dataIds baseIds syms jf (kp.getD "") : Int) cc
  rw [ha, hb, hc, hd]
  omega

/-- Sum of pointwise products is at most the product of the sums
(nonnegative counts). -/
theorem sum_map_mul_le_sum_mul_sum (l : List Int) (f g : Int → Nat) :
    (l.map (fun i => f i * g i)).sum ≤ (l.map f).sum * (l.map g).sum := by
  induction l with
  | nil => simp
  | cons a l ih =>
      simp only [List.map_cons, List.sum_cons]
      nlinarith [ih, Nat.zero_le (f a), Nat.zero_le (g a),
        Nat.zero_le ((l.map f).sum), Nat.zero_le ((l.map g).sum)]

/-- C2 counterexample: in the cohort `[1]` with one vax record `(X, M)` and a
symptom record repeating `H` in two slots, the emitted key `(X, M, H)` has
`a = 2` but `vax_total = 1`, `sym_total = 2`, so `a > min(vax_total,
sym_total)`. -/
theorem c2_joint_bound_counterexample :
    pairCount [1] [1] [⟨1, some "X", some "M"⟩]
        [⟨1, some "H", none, some "H", none, none⟩] ⟨none, none, none⟩
        (some "X") (some "M") (some "H") = 2 ∧
    vaxTotalLookup [1] [1] [⟨1, some "X", some "M"⟩] ⟨none, none, none⟩ "X" "M" = 1 ∧
    symTotalLookup [1] [1] [⟨1, some "H", none, some "H", none, none⟩]
        ⟨none, none, none⟩ "H" = 2 ∧
    ¬(2 ≤ min 1 2) := by
  decide

/-- C2 amended: for every emitted key whose three components are non-null
strings (the manufacturer- or symptom-null groups collapse to `""` on lookup
and can even violate this), the joint count is bounded by the **product** of
the two marginal totals: `a ≤ vax_total * sym_total`.  The `min` bound of the
claim fails because a single report may contribute several vaccine records and
several occurrences of the same symptom term. -/
theorem c2_joint_bound_amended (dataIds baseIds : List Int) (vaxs : List VaxRec)
    (syms : List SymRec) (jf : JoinFilters) (t m p : String) :
    pairCount dataIds baseIds vaxs syms jf (some t) (some m) (some p) ≤
      vaxTotalLookup dataIds baseIds vaxs jf t m *
        symTotalLookup dataIds baseIds syms jf p := by
  unfold pairCount vaxTotalLookup symTotalLookup vaxMargGroup symMargGroup
  by_cases h : slotFilterOk jf (some p) = true
  · simp only [h, if_true]
    exact sum_map_mul_le_sum_mul_sum _ _ _
  · simp only [Bool.not_eq_true] at h
    simp [h]

/-- C4 counterexample: the request parameter `min_count=abc` raises
`ValueError` in the signals endpoint (the liberal-parsing policy does **not**
cover it), while the same string handed to the filter module's `_parse_int` is
silently treated as "filter absent". -/
theorem c4_liberal_parsing_counterexample :
    parseMinCount (some "abc") = Except.error PyError.valueError ∧
    parse_int (some "abc") = none :=
  ⟨rfl, rfl⟩

/-- C4 amended: the liberal-parsing policy holds for the filter-module
parameters (`_parse_int`, `_parse_float`, `_parse_date_yyyy_mm_dd`) and for
`onset_days_min`/`onset_days_max`, which map any unparseable value to "filter
absent" and never raise; but the ranker/metric parameters `min_count`,
`min_vax_total`, `min_sym_total`, `limit` and `cc` are parsed with bare
`int()`/`float()` and raise `ValueError` on any unparseable non-blank
input. -/
theorem c4_liberal_parsing_amended (s : String)
    (hne : stripChars s.toList ≠ [])
    (hint : pyIntChars? (stripChars s.toList) = none) :
    parse_int (some s) = none ∧
    parseMinCount (some s) = Except.error PyError.valueError ∧
    parseMinVaxTotal (some s) = Except.error PyError.valueError ∧
    parseMinSymTotal (some s) = Except.error PyError.valueError ∧
    parseLimit (some s) = Except.error PyError.valueError ∧
    (pyFloat? s = none →
      parse_float (some s) = none ∧
      parseOnsetBound (some s) = none ∧
      parseCc (some s) = Except.error PyError.valueError) ∧
    (pyStrptimeYmd? (stripChars s.toList) = none →
      parse_date_yyyy_mm_dd (some s) = none) := by
  have hs : s ≠ "" := by
    intro h
    apply hne
    rw [h]
    rfl
  have hsEmpty : (stripChars s.toList).isEmpty = false := by
    cases h : stripChars s.toList with
    | nil => exact absurd h hne
    | cons a t => rfl
  have hne2 : ¬stripChars s.data = [] := hne
  have hint2 : pyIntChars? (stripChars s.data) = none := hint
  have hsEmpty2 : (stripChars s.data).isEmpty = false := hsEmpty
  refine ⟨?_, ?_, ?_, ?_, ?_, ?_, ?_⟩
  · simp [parse_int, hsEmpty2, hint2]
  · simp [parseMinCount, hs, pyInt?, hint2]
  · simp [parseMinVaxTotal, hs, pyInt?, hint2]
  · simp [parseMinSymTotal, hs, pyInt?, hint2]
  · simp [parseLimit, hs, pyInt?, hint2]
  · intro hf
    have hfc : pyFloatChars? (stripChars s.data) = none := by rwa [pyFloat?] at hf
    exact ⟨by simp [parse_float, hsEmpty2, hfc], by simp [parseOnsetBound, hsEmpty2, hfc],
      by simp [parseCc, hs, pyFloat?, hfc]⟩
  · intro hd
    have hd2 : pyStrptimeYmd? (stripChars s.data) = none := hd
    simp [parse_date_yyyy_mm_dd, hsEmpty2, hd2]


/-- Witness for `c4_liberal_parsing_amended` at the string `"zzz"`. -/
theorem c4_liberal_parsing_amended_witness :
    parse_int (some "zzz") = none ∧
    parseMinCount (some "zzz") = Except.error PyError.valueError :=
  ⟨(c4_liberal_parsing_amended "zzz" (by decide) (by decide)).1,
    (c4_liberal_parsing_amended "zzz" (by decide) (by decide)).2.1⟩

/-- C9: the spec §8 worked example.  `N = 1000, a = 12, vax_total = 80,
sym_total = 50` yields cells `b = 68, c = 38, d = 882`, no continuity
correction, and `PRR = (12/80)/(38/920)`, which is within `0.001` of `3.631`. -/
theorem c9_worked_example :
    (computeMetrics 1000 12 80 50 (1/2)).a = 12 ∧
    (computeMetrics 1000 12 80 50 (1/2)).b = 68 ∧
    (computeMetrics 1000 12 80 50 (1/2)).c = 38 ∧
    (computeMetrics 1000 12 80 50 (1/2)).d = 882 ∧
    (computeMetrics 1000 12 80 50 (1/2)).ccApplied = some false ∧
    (computeMetrics 1000 12 80 50 (1/2)).prr = some (((12 : ℚ)/80) / ((38 : ℚ)/920)) ∧
    |((12 : ℚ)/80) / ((38 : ℚ)/920) - 3631/1000| < 1/1000 := by
  refine ⟨?_, ?_, ?_, ?_, ?_, ?_, by rw [abs_sub_lt_iff]; norm_num⟩ <;>
    simp only [computeMetrics] <;> norm_num

/-! ### Association-list and cache lemmas -/

/-- A successful lookup is a member of the list. -/
theorem lookupKey_mem {β : Type} {k : String} {v : β} :
    ∀ {l : List (String × β)}, lookupKey k l = some v → (k, v) ∈ l := by
  intro l
  induction l with
  | nil => intro h; simp [lookupKey] at h
  | cons a rest ih =>
      intro h
      rw [lookupKey] at h
      by_cases hk : a.1 == k
      · rw [if_pos hk] at h
        cases h
        have ha : a.1 = k := eq_of_beq hk
        subst ha
        simp
      · rw [if_neg hk] at h
        exact List.mem_cons_of_mem _ (ih h)

/-- Lookup misses survive filtering. -/
theorem lookupKey_filter_none {β : Type} {k : String} {p : String × β → Bool} :
    ∀ {l : List (String × β)}, lookupKey k l = none →
      lookupKey k (l.filter p) = none := by
  intro l
  induction l with
  | nil => intro _; rfl
  | cons a rest ih =>
      intro h
      rw [lookupKey] at h
      by_cases hk : a.1 == k
      · rw [if_pos hk] at h; cases h
      · rw [if_neg hk] at h
        rw [List.filter_cons]
        by_cases hp : p a
        · rw [if_pos hp, lookupKey, if_neg hk]
          exact ih h
        · rw [if_neg hp]
          exact ih h

/-- A lookup that succeeds in a filtered list found an element satisfying the
filter. -/
theorem lookupKey_filter_pred {β : Type} {k : String} {v : β} {p : String × β → Bool} :
    ∀ {l : List (String × β)}, lookupKey k (l.filter p) = some v → p (k, v) = true := by
  intro l h
  have hm := lookupKey_mem h
  have := (List.mem_filter.mp hm).2
  exact this

/-- Looking up the freshly inserted key finds the inserted value. -/
theorem lookupKey_dictInsert_self {β : Type} (k : String) (v : β) :
    ∀ (l : List (String × β)), lookupKey k (dictInsert k v l) = some v := by
  intro l
  induction l with
  | nil => simp [dictInsert, lookupKey]
  | cons a rest ih =>
      rw [dictInsert]
      by_cases hk : a.1 == k
      · rw [if_pos hk, lookupKey, if_pos (by simp)]
      · rw [if_neg hk, lookupKey, if_neg hk]
        exact ih

/-- With distinct keys, the only entry of `dictInsert k v l` whose key is `k`
is the inserted one. -/
theorem mem_dictInsert_key_eq {β : Type} {k : String} {v e : β} :
    ∀ {l : List (String × β)}, (l.map Prod.fst).Nodup →
      (k, e) ∈ dictInsert k v l → e = v := by
  intro l
  induction l with
  | nil =>
      intro _ h
      simp [dictInsert] at h
      exact h
  | cons a rest ih =>
      intro hnd h
      rw [List.map_cons, List.nodup_cons] at hnd
      rw [dictInsert] at h
      by_cases hk : a.1 == k
      · rw [if_pos hk] at h
        rcases List.mem_cons.mp h with h1 | h1
        · cases h1; rfl
        · exfalso
          apply hnd.1
          have ha : a.1 = k := eq_of_beq hk
          rw [ha]
          exact List.mem_map_of_mem Prod.fst h1
      · rw [if_neg hk] at h
        rcases List.mem_cons.mp h with h1 | h1
        · exfalso
          apply hk
          exact beq_iff_eq.mpr (congrArg Prod.fst h1).symm
        · exact ih hnd.2 h1

/-- Keys after a dict insert are among the new key and the old keys. -/
theorem keys_dictInsert_subset {β : Type} (k : String) (v : β) :
    ∀ (l : List (String × β)),
      (dictInsert k v l).map Prod.fst ⊆ k :: l.map Prod.fst := by
  intro l
  induction l with
  | nil => simp [dictInsert]
  | cons a rest ih =>
      rw [dictInsert]
      by_cases hk : a.1 == k
      · rw [if_pos hk]
        intro x hx
        rcases List.mem_cons.mp hx with h | h
        · rw [h]; exact List.mem_cons_self _ _
        · exact List.mem_cons_of_mem _ (List.mem_cons_of_mem _ h)
      · rw [if_neg hk]
        intro x hx
        rcases List.mem_cons.mp hx with h | h
        · rw [h]
          exact List.mem_cons_of_mem _ (List.mem_cons_self _ _)
        · rcases List.mem_cons.mp (ih h) with h1 | h1
          · rw [h1]; exact List.mem_cons_self _ _
          · exact List.mem_cons_of_mem _ (List.mem_cons_of_mem _ h1)

/-- A dict insert preserves distinctness of keys. -/
theorem nodup_keys_dictInsert {β : Type} {k : String} {v : β} :
    ∀ {l : List (String × β)}, (l.map Prod.fst).Nodup →
      ((dictInsert k v l).map Prod.fst).Nodup := by
  intro l
  induction l with
  | nil => intro _; simp [dictInsert]
  | cons a rest ih =>
      intro hnd
      rw [List.map_cons, List.nodup_cons] at hnd
      rw [dictInsert]
      by_cases hk : a.1 == k
      · rw [if_pos hk, List.map_cons, List.nodup_cons]
        have ha : a.1 = k := eq_of_beq hk
        exact ⟨by rw [← ha]; exact hnd.1, hnd.2⟩
      · rw [if_neg hk, List.map_cons, List.nodup_cons]
        refine ⟨?_, ih hnd.2⟩
        intro hmem
        rcases List.mem_cons.mp (keys_dictInsert_subset k v rest hmem) with h | h
        · exact hk (by rw [h]; simp)
        · exact hnd.1 h

/-- Filtering preserves distinctness of keys. -/
theorem nodup_keys_filter {β : Type} {p : String × β → Bool} {l : List (String × β)}
    (h : (l.map Prod.fst).Nodup) : ((l.filter p).map Prod.fst).Nodup :=
  h.sublist ((l.filter_sublist).map Prod.fst)

/-- Expiry eviction is idempotent. -/
theorem evictExpiredList_idem {α : Type} (t : ℚ) (l : List (String × CacheEntry α)) :
    evictExpiredList t (evictExpiredList t l) = evictExpiredList t l := by
  simp [evictExpiredList, List.filter_filter]

/-- What an enabled `get` returns and does to the store: the result is the
stored (possibly `None`) value of an unexpired entry, flattened so that a miss
and a stored `None` are both `none`; the store afterwards is the expired-pruned
store; configuration fields are untouched. -/
theorem cacheGet_spec {α : Type} (t : ℚ) (key : String) (c : TTLCache α)
    (h : c.enabled = true) :
    (cacheGet t key c).1 =
      ((lookupKey key (evictExpiredList t c.store)).bind fun ent => ent.value) ∧
    ((cacheGet t key c).2).store = evictExpiredList t c.store ∧
    ((cacheGet t key c).2).enabled = true ∧
    ((cacheGet t key c).2).maxItems = c.maxItems ∧
    ((cacheGet t key c).2).defaultTtl = c.defaultTtl := by
  unfold cacheGet
  rw [h]
  simp only [Bool.not_true, Bool.false_eq_true, if_false]
  cases hlk : lookupKey key (evictExpired t c).store with
  | none =>
      have hlk2 : lookupKey key (evictExpiredList t c.store) = none := hlk
      simp [hlk, hlk2, evictExpired, h]
  | some ent =>
      have hlk2 : lookupKey key (evictExpiredList t c.store) = some ent := hlk
      have hp : (fun (e : String × CacheEntry α) => !decide (e.2.expiresAt ≤ t))
          (key, ent) = true :=
        lookupKey_filter_pred (l := c.store) hlk2
      have hnotle : ¬(ent.expiresAt ≤ t) := by simpa using hp
      simp [hlk, hlk2, hnotle, evictExpired, h]

/-- A second `get` right after a missing `get` still misses (and the store is
stable). -/
theorem cacheGet_iter_none {α : Type} (t : ℚ) (key : String) (c : TTLCache α)
    (h : c.enabled = true) (hm : (cacheGet t key c).1 = none) :
    (cacheGet t key (cacheGet t key c).2).1 = none := by
  obtain ⟨h1, h2, h3, -, -⟩ := cacheGet_spec t key c h
  obtain ⟨h1', h2', -, -, -⟩ := cacheGet_spec t key (cacheGet t key c).2 h3
  rw [h1', h2, evictExpiredList_idem, ← h1]
  exact hm

/-- C6: when `compute` raises, `get_or_set` propagates that same exception to
the caller; the store afterwards is the original store minus lazily evicted
expired entries — in particular nothing was cached for the key: if the key had
no entry before, it has none after. -/
theorem c6_error_propagates_uncached {α ε : Type} (t : ℚ) (key : String) (err : ε)
    (ttl : Option Int) (c : TTLCache α) (hen : c.enabled = true)
    (hmiss : (cacheGet t key c).1 = none) :
    (getOrSet t key (Except.error err) ttl c).result = Except.error err ∧
    (getOrSet t key (Except.error err) ttl c).cache.store = evictExpiredList t c.store ∧
    (lookupKey key c.store = none →
      lookupKey key ((getOrSet t key (Except.error err) ttl c).cache.store) = none) := by
  have hspec := cacheGet_spec t key c hen
  have hm2 := cacheGet_iter_none t key c hen hmiss
  have hspec2 := cacheGet_spec t key (cacheGet t key c).2 hspec.2.2.1
  have hstore : (getOrSet t key (Except.error err) ttl c).cache.store =
      evictExpiredList t c.store := by
    simp only [getOrSet, hmiss, hm2]
    rw [hspec2.2.1, hspec.2.1, evictExpiredList_idem]
  refine ⟨?_, hstore, ?_⟩
  · simp only [getOrSet, hmiss, hm2]
  · intro hnone
    rw [hstore]
    exact lookupKey_filter_none hnone

/-- Witness for `c6_error_propagates_uncached` on the empty enabled cache. -/
theorem c6_error_propagates_uncached_witness :
    (getOrSet 0 "k" (Except.error PyError.valueError) (some 5)
      (⟨45, 2048, true, [], ⟨0, 0, 0, 0, 0⟩⟩ : TTLCache Nat)).result =
        Except.error PyError.valueError ∧
    (getOrSet 0 "k" (Except.error PyError.valueError) (some 5)
      (⟨45, 2048, true, [], ⟨0, 0, 0, 0, 0⟩⟩ : TTLCache Nat)).cache.store =
        evictExpiredList 0 [] ∧
    (lookupKey "k" ([] : List (String × CacheEntry Nat)) = none →
      lookupKey "k" ((getOrSet 0 "k" (Except.error PyError.valueError) (some 5)
        (⟨45, 2048, true, [], ⟨0, 0, 0, 0, 0⟩⟩ : TTLCache Nat)).cache.store) = none) :=
  c6_error_propagates_uncached 0 "k" PyError.valueError (some 5)
    ⟨45, 2048, true, [], ⟨0, 0, 0, 0, 0⟩⟩ rfl rfl

/-- In a sorted list, elements of the prefix are related to elements of the
suffix. -/
theorem sorted_take_drop_rel {β : Type} {r : β → β → Prop} {l : List β}
    (hs : List.Sorted r l) (n : Nat) {p q : β} (hp : p ∈ l.take n)
    (hq : q ∈ l.drop n) : r p q := by
  have heq := List.take_append_drop n l
  rw [← heq] at hs
  exact (List.pairwise_append.mp hs).2.2 p hp q hq

/-- `_evict_overflow_locked` does nothing within capacity. -/
theorem evictOverflow_store_of_le {α : Type} {c : TTLCache α}
    (h : (c.store.length : Int) ≤ c.maxItems) :
    (evictOverflow c).store = c.store := by
  simp [evictOverflow, h]

/-- `_evict_overflow_locked` never adds entries. -/
theorem evictOverflow_subset {α : Type} (c : TTLCache α) :
    (evictOverflow c).store ⊆ c.store := by
  unfold evictOverflow
  split
  · exact fun _ h => h
  · intro a ha
    exact (List.mem_filter.mp ha).1

/-- Over capacity, the surviving store is a permutation of the suffix of the
expiry-sorted items after the first `len - max_items` of them. -/
theorem evictOverflow_store_perm {α : Type} (c : TTLCache α)
    (hnd : (c.store.map Prod.fst).Nodup)
    (h : ¬((c.store.length : Int) ≤ c.maxItems)) :
    (evictOverflow c).store.Perm
      ((List.insertionSort entryLE c.store).drop (c.store.length - c.maxItems.toNat)) := by
  have hperm : c.store.Perm (List.insertionSort entryLE c.store) :=
    (List.perm_insertionSort entryLE c.store).symm
  have hndsorted : ((List.insertionSort entryLE c.store).map Prod.fst).Nodup :=
    (hperm.map Prod.fst).nodup_iff.mp hnd
  simp only [evictOverflow, h, if_false]
  set sorted := List.insertionSort entryLE c.store with hsorted
  set over := c.store.length - c.maxItems.toNat with hover
  set victims := (sorted.take over).map Prod.fst with hvict
  have hfperm : (c.store.filter (fun e => !victims.contains e.1)).Perm
      (sorted.filter (fun e => !victims.contains e.1)) :=
    hperm.filter _
  have hsplit : sorted.take over ++ sorted.drop over = sorted := List.take_append_drop over sorted
  have hdisj := (List.nodup_append.mp (by
    rw [← List.map_append, hsplit]; exact hndsorted)).2.2
  have htake : (sorted.take over).filter (fun e => !victims.contains e.1) = [] := by
    rw [List.filter_eq_nil_iff]
    intro e he
    have : e.1 ∈ victims := by
      rw [hvict]
      exact List.mem_map_of_mem Prod.fst he
    simp [this]
  have hdrop : (sorted.drop over).filter (fun e => !victims.contains e.1) =
      sorted.drop over := by
    rw [List.filter_eq_self]
    intro e he
    have hnotin : e.1 ∉ victims := by
      intro hin
      rw [hvict] at hin
      obtain ⟨x, hx, hfst⟩ := List.mem_map.mp hin
      exact hdisj (hfst ▸ List.mem_map_of_mem Prod.fst hx) (List.mem_map_of_mem Prod.fst he)
    simp [hnotin]
  have hfinal : sorted.filter (fun e => !victims.contains e.1) = sorted.drop over := by
    conv_lhs => rw [← hsplit]
    rw [List.filter_append, htake, hdrop, List.nil_append]
  exact hfinal ▸ hfperm

/-- After overflow eviction the store is within the configured bound. -/
theorem evictOverflow_length_le {α : Type} (c : TTLCache α) (hmax : 0 ≤ c.maxItems)
    (hnd : (c.store.map Prod.fst).Nodup) :
    ((evictOverflow c).store.length : Int) ≤ c.maxItems := by
  by_cases h : (c.store.length : Int) ≤ c.maxItems
  · rw [evictOverflow_store_of_le h]
    exact h
  · have hp := evictOverflow_store_perm c hnd h
    have hlen := hp.length_eq
    rw [List.length_drop] at hlen
    have hslen : (List.insertionSort entryLE c.store).length = c.store.length :=
      (List.perm_insertionSort entryLE c.store).length_eq
    rw [hslen] at hlen
    rw [hlen]
    omega

/-- Every entry removed by overflow eviction expires no later than every
survivor. -/
theorem evictOverflow_evicted_le {α : Type} (c : TTLCache α)
    (hnd : (c.store.map Prod.fst).Nodup) :
    ∀ p ∈ c.store, p ∉ (evictOverflow c).store →
      ∀ q ∈ (evictOverflow c).store, entryLE p q := by
  intro p hp hnp q hq
  by_cases h : (c.store.length : Int) ≤ c.maxItems
  · rw [evictOverflow_store_of_le h] at hnp
    exact absurd hp hnp
  · have hperm := evictOverflow_store_perm c hnd h
    have hq2 := hperm.mem_iff.mp hq
    have hsorted : List.Sorted entryLE (List.insertionSort entryLE c.store) :=
      List.sorted_insertionSort entryLE c.store
    have hpmem : p ∈ List.insertionSort entryLE c.store :=
      (List.perm_insertionSort entryLE c.store).mem_iff.mpr hp
    have hsplit := List.take_append_drop (c.store.length - c.maxItems.toNat)
      (List.insertionSort entryLE c.store)
    rw [← hsplit] at hpmem
    rcases List.mem_append.mp hpmem with htk | hdr
    · exact sorted_take_drop_rel hsorted _ htk hq2
    · exact absurd (hperm.mem_iff.mpr hdr) hnp

/-- An enabled `set` is expiry eviction, then a dict insert of the entry
`(now + ttl, value)`, then overflow eviction; configuration fields are
untouched. -/
theorem cacheSet_some_as_evictOverflow {α : Type} (t : ℚ) (key : String) (v : Option α)
    (ttl : Int) (c : TTLCache α) (hen : c.enabled = true) :
    ∃ c2 : TTLCache α, cacheSet t key v (some ttl) c = evictOverflow c2 ∧
      c2.store = dictInsert key ⟨t + (ttl : ℚ), v⟩ (evictExpiredList t c.store) ∧
      c2.maxItems = c.maxItems ∧ c2.enabled = true ∧ c2.defaultTtl = c.defaultTtl := by
  refine ⟨{ evictExpired t c with
      store := dictInsert key ⟨t + (ttl : ℚ), v⟩ (evictExpiredList t c.store),
      stats := { (evictExpired t c).stats with
        sets := (evictExpired t c).stats.sets + 1 } }, ?_, rfl, rfl, hen, rfl⟩
  unfold cacheSet
  simp only [hen, Bool.not_true, Bool.false_eq_true, if_false]
  rfl

/-- C7: after an enabled `set(key, value, ttl)` on a cache with distinct keys
and a nonnegative `max_items` bound: the store is within the bound; any entry
stored under the key is exactly `(now + ttl, value)`; every entry evicted by
the overflow pass expires no later than every surviving entry; and when the
post-insert store is within the bound the key's entry is present (with expiry
`now + ttl`). -/
theorem c7_set_stores_within_bound_evicting_earliest {α : Type} (t : ℚ) (key : String)
    (v : Option α) (ttl : Int) (c : TTLCache α) (hen : c.enabled = true)
    (hmax : 0 ≤ c.maxItems) (hnd : (c.store.map Prod.fst).Nodup) :
    (((cacheSet t key v (some ttl) c).store.length : Int) ≤ c.maxItems) ∧
    (∀ e, lookupKey key (cacheSet t key v (some ttl) c).store = some e →
      e = ⟨t + (ttl : ℚ), v⟩) ∧
    (∀ p ∈ dictInsert key (⟨t + (ttl : ℚ), v⟩ : CacheEntry α) (evictExpiredList t c.store),
      p ∉ (cacheSet t key v (some ttl) c).store →
      ∀ q ∈ (cacheSet t key v (some ttl) c).store, p.2.expiresAt ≤ q.2.expiresAt) ∧
    (((dictInsert key (⟨t + (ttl : ℚ), v⟩ : CacheEntry α)
        (evictExpiredList t c.store)).length : Int) ≤ c.maxItems →
      lookupKey key (cacheSet t key v (some ttl) c).store = some ⟨t + (ttl : ℚ), v⟩) := by
  obtain ⟨c2, hc2, hstore, hmaxeq, hen2, -⟩ :=
    cacheSet_some_as_evictOverflow t key v ttl c hen
  have hndins : (c2.store.map Prod.fst).Nodup := by
    rw [hstore]
    exact nodup_keys_dictInsert (nodup_keys_filter hnd)
  refine ⟨?_, ?_, ?_, ?_⟩
  · rw [hc2, ← hmaxeq]
    exact evictOverflow_length_le c2 (hmaxeq ▸ hmax) hndins
  · intro e hl
    rw [hc2] at hl
    have hmem := evictOverflow_subset c2 (lookupKey_mem hl)
    rw [hstore] at hmem
    exact mem_dictInsert_key_eq (nodup_keys_filter hnd) hmem
  · intro p hp hnp q hq
    rw [hc2] at hnp hq
    rw [← hstore] at hp
    exact evictOverflow_evicted_le c2 hndins p hp hnp q hq
  · intro hlen
    have hle : (c2.store.length : Int) ≤ c2.maxItems := by
      rw [hstore, hmaxeq]
      exact hlen
    rw [hc2, evictOverflow_store_of_le hle, hstore]
    exact lookupKey_dictInsert_self _ _ _

/-- Witness for `c7_set_stores_within_bound_evicting_earliest` on the empty
enabled cache with `max_items = 2048`. -/
theorem c7_set_stores_within_bound_evicting_earliest_witness :
    (((cacheSet 0 "k" (some 7) (some 5)
        (⟨45, 2048, true, [], ⟨0, 0, 0, 0, 0⟩⟩ : TTLCache Nat)).store.length : Int) ≤ 2048) ∧
    (∀ e, lookupKey "k" (cacheSet 0 "k" (some 7) (some 5)
        (⟨45, 2048, true, [], ⟨0, 0, 0, 0, 0⟩⟩ : TTLCache Nat)).store = some e →
      e = ⟨0 + ((5 : Int) : ℚ), some 7⟩) ∧
    (∀ p ∈ dictInsert "k" (⟨0 + ((5 : Int) : ℚ), some 7⟩ : CacheEntry Nat)
        (evictExpiredList 0 []),
      p ∉ (cacheSet 0 "k" (some 7) (some 5)
        (⟨45, 2048, true, [], ⟨0, 0, 0, 0, 0⟩⟩ : TTLCache Nat)).store →
      ∀ q ∈ (cacheSet 0 "k" (some 7) (some 5)
        (⟨45, 2048, true, [], ⟨0, 0, 0, 0, 0⟩⟩ : TTLCache Nat)).store,
        p.2.expiresAt ≤ q.2.expiresAt) ∧
    (((dictInsert "k" (⟨0 + ((5 : Int) : ℚ), some 7⟩ : CacheEntry Nat)
        (evictExpiredList 0 [])).length : Int) ≤ 2048 →
      lookupKey "k" (cacheSet 0 "k" (some 7) (some 5)
        (⟨45, 2048, true, [], ⟨0, 0, 0, 0, 0⟩⟩ : TTLCache Nat)).store =
        some ⟨0 + ((5 : Int) : ℚ), some 7⟩) :=
  c7_set_stores_within_bound_evicting_earliest 0 "k" (some 7) 5
    ⟨45, 2048, true, [], ⟨0, 0, 0, 0, 0⟩⟩ rfl (by decide) (by simp)

/-- Overflow eviction touches only the store and stats. -/
theorem evictOverflow_fields {α : Type} (c : TTLCache α) :
    (evictOverflow c).enabled = c.enabled ∧ (evictOverflow c).maxItems = c.maxItems ∧
    (evictOverflow c).defaultTtl = c.defaultTtl := by
  unfold evictOverflow
  split <;> exact ⟨rfl, rfl, rfl⟩

/-- `set` never changes the `enabled` flag. -/
theorem cacheSet_enabled {α : Type} (t : ℚ) (key : String) (v : Option α)
    (ttlS : Option Int) (c : TTLCache α) :
    (cacheSet t key v ttlS c).enabled = c.enabled := by
  unfold cacheSet
  split
  · rfl
  · exact ((evictOverflow_fields _).1).trans rfl

/-- An enabled `set` with any ttl argument, decomposed (general form of
`cacheSet_some_as_evictOverflow`). -/
theorem cacheSet_as_evictOverflow {α : Type} (t : ℚ) (key : String) (v : Option α)
    (ttlS : Option Int) (c : TTLCache α) (hen : c.enabled = true) :
    ∃ c2 : TTLCache α, cacheSet t key v ttlS c = evictOverflow c2 ∧
      c2.store = dictInsert key ⟨t + ((ttlS.getD c.defaultTtl : Int) : ℚ), v⟩
        (evictExpiredList t c.store) ∧
      c2.maxItems = c.maxItems ∧ c2.enabled = true := by
  cases ttlS with
  | none =>
      refine ⟨{ evictExpired t c with
          store := dictInsert key ⟨t + ((c.defaultTtl : Int) : ℚ), v⟩
            (evictExpiredList t c.store),
          stats := { (evictExpired t c).stats with
            sets := (evictExpired t c).stats.sets + 1 } }, ?_, rfl, rfl, hen⟩
      unfold cacheSet
      simp only [hen, Bool.not_true, Bool.false_eq_true, if_false]
      rfl
  | some n =>
      refine ⟨{ evictExpired t c with
          store := dictInsert key ⟨t + ((n : Int) : ℚ), v⟩ (evictExpiredList t c.store),
          stats := { (evictExpired t c).stats with
            sets := (evictExpired t c).stats.sets + 1 } }, ?_, rfl, rfl, hen⟩
      unfold cacheSet
      simp only [hen, Bool.not_true, Bool.false_eq_true, if_false]
      rfl

/-- After `set(key, None, ·)`, a `get` of that key — at any time — returns
`None`, indistinguishable from a miss. -/
theorem get_after_set_none {α : Type} (t₁ t₂ : ℚ) (key : String) (ttlS : Option Int)
    (c : TTLCache α) (hen : c.enabled = true) (hnd : (c.store.map Prod.fst).Nodup) :
    (cacheGet t₂ key (cacheSet t₁ key none ttlS c)).1 = none := by
  obtain ⟨c2, hc2, hstore, -, -⟩ := cacheSet_as_evictOverflow t₁ key none ttlS c hen
  have henS : (cacheSet t₁ key none ttlS c).enabled = true :=
    (cacheSet_enabled t₁ key none ttlS c).trans hen
  rw [(cacheGet_spec t₂ key _ henS).1]
  cases hlk : lookupKey key (evictExpiredList t₂ (cacheSet t₁ key none ttlS c).store) with
  | none => rfl
  | some e =>
      have hm := lookupKey_mem hlk
      have hm2 : (key, e) ∈ (cacheSet t₁ key none ttlS c).store := (List.mem_filter.mp hm).1
      rw [hc2] at hm2
      have hm3 := evictOverflow_subset c2 hm2
      rw [hstore] at hm3
      have hval := mem_dictInsert_key_eq (nodup_keys_filter hnd) hm3
      rw [hval]
      rfl

/-- A caller whose `compute` returns `None` runs it (on a missing key), gets
`None` back, stores an entry that `get` cannot distinguish from a miss — so
the next caller runs its `compute` again. -/
theorem getOrSet_ok_none_reruns {α ε : Type} (t₂ t₃ : ℚ) (key : String)
    (ttlA ttlB : Option Int) (c : TTLCache α) (hen : c.enabled = true)
    (hnd : (c.store.map Prod.fst).Nodup) (hmiss : (cacheGet t₂ key c).1 = none) :
    (getOrSet (ε := ε) t₂ key (Except.ok none) ttlA c).computeRuns = 1 ∧
    (getOrSet (ε := ε) t₂ key (Except.ok none) ttlA c).result = Except.ok none ∧
    (getOrSet (ε := ε) t₃ key (Except.ok none) ttlB
      (getOrSet (ε := ε) t₂ key (Except.ok none) ttlA c).cache).computeRuns = 1 := by
  have hspec1 := cacheGet_spec t₂ key c hen
  have hm2 := cacheGet_iter_none t₂ key c hen hmiss
  have hspec2 := cacheGet_spec t₂ key (cacheGet t₂ key c).2 hspec1.2.2.1
  have hen2 : ((cacheGet t₂ key (cacheGet t₂ key c).2).2).enabled = true := hspec2.2.2.1
  have hnd2 : (((cacheGet t₂ key (cacheGet t₂ key c).2).2).store.map Prod.fst).Nodup := by
    rw [hspec2.2.1, hspec1.2.1]
    exact nodup_keys_filter (nodup_keys_filter hnd)
  have hcache : (getOrSet (ε := ε) t₂ key (Except.ok none) ttlA c).cache =
      cacheSet t₂ key none ttlA ((cacheGet t₂ key (cacheGet t₂ key c).2).2) := by
    simp only [getOrSet, hmiss, hm2]
  have hsetmiss := get_after_set_none t₂ t₃ key ttlA _ hen2 hnd2
  have henS : (cacheSet t₂ key none ttlA ((cacheGet t₂ key (cacheGet t₂ key c).2).2)).enabled
      = true := (cacheSet_enabled _ _ _ _ _).trans hen2
  have hm4 := cacheGet_iter_none t₃ key _ henS hsetmiss
  refine ⟨?_, ?_, ?_⟩
  · simp only [getOrSet, hmiss, hm2]
  · simp only [getOrSet, hmiss, hm2]
  · rw [hcache]
    simp only [getOrSet, hsetmiss, hm4]

/-- C5 counterexample: two same-key callers of `get_or_set` whose `compute`
returns `None`, the second entering after the first released the per-key lock
(a legal schedule of two concurrent callers): each executes `compute`, so
`compute` runs twice, not once. -/
theorem c5_single_flight_counterexample :
    (getOrSet (ε := PyError) 0 "k" (Except.ok (none : Option Nat)) (some 5)
      ⟨45, 2048, true, [], ⟨0, 0, 0, 0, 0⟩⟩).computeRuns = 1 ∧
    (getOrSet (ε := PyError) 0 "k" (Except.ok (none : Option Nat)) (some 5)
      (getOrSet (ε := PyError) 0 "k" (Except.ok (none : Option Nat)) (some 5)
        ⟨45, 2048, true, [], ⟨0, 0, 0, 0, 0⟩⟩).cache).computeRuns = 1 := by
  have h := getOrSet_ok_none_reruns (α := Nat) (ε := PyError) 0 0 "k" (some 5) (some 5)
    ⟨45, 2048, true, [], ⟨0, 0, 0, 0, 0⟩⟩ rfl (by simp) rfl
  exact ⟨h.1, h.2.2⟩

/-- C5 amended: single-flight holds for non-`None` results — on an enabled,
initially unoccupied cache with capacity, the first caller executes `compute`
exactly once and stores the value, and a later same-key caller inside the TTL
window returns that value with **zero** executions of its own `compute`
(modelling the blocked waiter that re-checks the cache after acquiring the
per-key lock).  A `compute` returning `None` is instead re-executed by every
caller, and "distinct keys compute fully concurrently" is a scheduling/timing
property outside this sequential model. -/
theorem c5_single_flight_amended {α ε : Type} (t tp : ℚ) (key : String) (v : α)
    (ttl : Int) (compute2 : Except ε (Option α)) (ttl2 : Option Int) (c : TTLCache α)
    (hen : c.enabled = true) (hempty : c.store = []) (hmax : 1 ≤ c.maxItems)
    (hlt : tp < t + (ttl : ℚ)) :
    (getOrSet (ε := ε) t key (Except.ok (some v)) (some ttl) c).computeRuns = 1 ∧
    (getOrSet (ε := ε) t key (Except.ok (some v)) (some ttl) c).result =
      Except.ok (some v) ∧
    (getOrSet tp key compute2 ttl2
      (getOrSet (ε := ε) t key (Except.ok (some v)) (some ttl) c).cache).computeRuns = 0 ∧
    (getOrSet tp key compute2 ttl2
      (getOrSet (ε := ε) t key (Except.ok (some v)) (some ttl) c).cache).result =
      Except.ok (some v) := by
  have hspec1 := cacheGet_spec t key c hen
  have hmiss : (cacheGet t key c).1 = none := by
    rw [hspec1.1, hempty]
    rfl
  have hm2 := cacheGet_iter_none t key c hen hmiss
  have hspec2 := cacheGet_spec t key (cacheGet t key c).2 hspec1.2.2.1
  have hen2 : ((cacheGet t key (cacheGet t key c).2).2).enabled = true := hspec2.2.2.1
  have hs2store : ((cacheGet t key (cacheGet t key c).2).2).store = [] := by
    rw [hspec2.2.1, hspec1.2.1, hempty]
    rfl
  have hs2max : ((cacheGet t key (cacheGet t key c).2).2).maxItems = c.maxItems := by
    rw [hspec2.2.2.2.1, hspec1.2.2.2.1]
  obtain ⟨c2, hc2, hstore, hmaxeq, -⟩ :=
    cacheSet_as_evictOverflow t key (some v) (some ttl) _ hen2
  have hc2store : c2.store = [(key, ⟨t + (ttl : ℚ), some v⟩)] := by
    rw [hstore, hs2store]
    rfl
  have hle : (c2.store.length : Int) ≤ c2.maxItems := by
    rw [hc2store, hmaxeq, hs2max]
    exact le_trans (by norm_num) hmax
  have hsetstore :
      (cacheSet t key (some v) (some ttl) ((cacheGet t key (cacheGet t key c).2).2)).store =
        [(key, ⟨t + (ttl : ℚ), some v⟩)] := by
    rw [hc2, evictOverflow_store_of_le hle, hc2store]
  have henS :
      (cacheSet t key (some v) (some ttl) ((cacheGet t key (cacheGet t key c).2).2)).enabled =
        true := (cacheSet_enabled _ _ _ _ _).trans hen2
  have hnotle : ¬(t + (ttl : ℚ) ≤ tp) := not_le.mpr hlt
  have hget2 :
      (cacheGet tp key
        (cacheSet t key (some v) (some ttl) ((cacheGet t key (cacheGet t key c).2).2))).1 =
        some v := by
    rw [(cacheGet_spec tp key _ henS).1, hsetstore]
    simp [evictExpiredList, lookupKey, hnotle]
  have hcache : (getOrSet (ε := ε) t key (Except.ok (some v)) (some ttl) c).cache =
      cacheSet t key (some v) (some ttl) ((cacheGet t key (cacheGet t key c).2).2) := by
    simp only [getOrSet, hmiss, hm2]
  refine ⟨?_, ?_, ?_, ?_⟩
  · simp only [getOrSet, hmiss, hm2]
  · simp only [getOrSet, hmiss, hm2]
  · rw [hcache]
    simp only [getOrSet, hget2]
  · rw [hcache]
    simp only [getOrSet, hget2]

/-- Witness for `c5_single_flight_amended`: value `7` is computed once at
`t = 0` with ttl `5`; at `t = 1` a second caller (whose own `compute` would
raise) reuses it without computing. -/
theorem c5_single_flight_amended_witness :
    (getOrSet (ε := PyError) 0 "k" (Except.ok (some 7)) (some 5)
      (⟨45, 2048, true, [], ⟨0, 0, 0, 0, 0⟩⟩ : TTLCache Nat)).computeRuns = 1 ∧
    (getOrSet (ε := PyError) 0 "k" (Except.ok (some 7)) (some 5)
      (⟨45, 2048, true, [], ⟨0, 0, 0, 0, 0⟩⟩ : TTLCache Nat)).result =
      Except.ok (some 7) ∧
    (getOrSet 1 "k" (Except.error PyError.valueError) none
      (getOrSet (ε := PyError) 0 "k" (Except.ok (some 7)) (some 5)
        (⟨45, 2048, true, [], ⟨0, 0, 0, 0, 0⟩⟩ : TTLCache Nat)).cache).computeRuns = 0 ∧
    (getOrSet 1 "k" (Except.error PyError.valueError) none
      (getOrSet (ε := PyError) 0 "k" (Except.ok (some 7)) (some 5)
        (⟨45, 2048, true, [], ⟨0, 0, 0, 0, 0⟩⟩ : TTLCache Nat)).cache).result =
      Except.ok (some 7) :=
  c5_single_flight_amended 0 1 "k" 7 5 (Except.error PyError.valueError) none
    ⟨45, 2048, true, [], ⟨0, 0, 0, 0, 0⟩⟩ rfl rfl (by norm_num) (by norm_num)

/-- C10: a `None` result is never effectively cached.  After
`set(key, None, ttl)`, `get(key)` returns `None` at any time
(indistinguishable from a miss); and a `get_or_set` whose `compute` returns
`None` executes it (on a missing key), stores `None`, yet the next
`get_or_set` for the same key — at any later time, within the TTL window or
not — executes its `compute` again. -/
theorem c10_none_never_effectively_cached {α ε : Type} (t₁ t₂ t₃ : ℚ) (key : String)
    (ttlA ttlB : Option Int) (c : TTLCache α) (hen : c.enabled = true)
    (hnd : (c.store.map Prod.fst).Nodup) :
    (cacheGet t₂ key (cacheSet t₁ key none ttlA c)).1 = none ∧
    ((cacheGet t₂ key c).1 = none →
      (getOrSet (ε := ε) t₂ key (Except.ok none) ttlA c).computeRuns = 1 ∧
      (getOrSet (ε := ε) t₂ key (Except.ok none) ttlA c).result = Except.ok none ∧
      (getOrSet (ε := ε) t₃ key (Except.ok none) ttlB
        (getOrSet (ε := ε) t₂ key (Except.ok none) ttlA c).cache).computeRuns = 1) :=
  ⟨get_after_set_none t₁ t₂ key ttlA c hen hnd,
    fun hmiss => getOrSet_ok_none_reruns t₂ t₃ key ttlA ttlB c hen hnd hmiss⟩

/-- Witness for `c10_none_never_effectively_cached` on the empty enabled
cache. -/
theorem c10_none_never_effectively_cached_witness :
    (cacheGet 1 "k" (cacheSet 0 "k" none (some 5)
      (⟨45, 2048, true, [], ⟨0, 0, 0, 0, 0⟩⟩ : TTLCache Nat))).1 = none ∧
    ((cacheGet 1 "k" (⟨45, 2048, true, [], ⟨0, 0, 0, 0, 0⟩⟩ : TTLCache Nat)).1 = none →
      (getOrSet (ε := PyError) 1 "k" (Except.ok none) (some 5)
        (⟨45, 2048, true, [], ⟨0, 0, 0, 0, 0⟩⟩ : TTLCache Nat)).computeRuns = 1 ∧
      (getOrSet (ε := PyError) 1 "k" (Except.ok none) (some 5)
        (⟨45, 2048, true, [], ⟨0, 0, 0, 0, 0⟩⟩ : TTLCache Nat)).result = Except.ok none ∧
      (getOrSet (ε := PyError) 2 "k" (Except.ok none) none
        (getOrSet (ε := PyError) 1 "k" (Except.ok none) (some 5)
          (⟨45, 2048, true, [], ⟨0, 0, 0, 0, 0⟩⟩ : TTLCache Nat)).cache).computeRuns = 1) :=
  c10_none_never_effectively_cached 0 1 2 "k" (some 5) none
    ⟨45, 2048, true, [], ⟨0, 0, 0, 0, 0⟩⟩ rfl (by simp)
/-- Mapping over `attach` is mapping. -/
theorem attach_map_fst {α β : Type} (l : List α) (f : α → β) :
    l.attach.map (fun x => f x.1) = l.map f := by
  simp

/-- `canonJson` on arrays. -/
theorem canonJson_arr (xs : List Json) :
    canonJson (Json.arr xs) = Json.arr (xs.map canonJson) := by
  rw [canonJson]
  exact congrArg Json.arr (attach_map_fst xs canonJson)

/-- `canonJson` on objects. -/
theorem canonJson_obj (kvs : List (String × Json)) :
    canonJson (Json.obj kvs) = Json.obj (List.insertionSort keyLE
      (kvs.map (fun kv => (kv.1, canonJson kv.2)))) := by
  rw [canonJson]
  exact congrArg Json.obj (congrArg _ (attach_map_fst kvs (fun p => (p.1, canonJson p.2))))

/-- A key-sorted list with distinct keys is strictly key-sorted. -/
theorem sorted_keyLT_of_sorted_nodup {s : List (String × Json)}
    (hs : List.Sorted keyLE s) (hnd : (s.map Prod.fst).Nodup) :
    List.Sorted keyLT s := by
  have hne : List.Pairwise (fun a b : String × Json => a.1 ≠ b.1) s :=
    List.pairwise_map.mp hnd
  exact (hs.and hne).imp (fun h => lt_of_le_of_ne h.1 h.2)

/-- Key-sorting is determined by the multiset of entries when keys are
distinct. -/
theorem insertionSort_keyLE_eq_of_perm {l₁ l₂ : List (String × Json)}
    (hp : l₁.Perm l₂) (hnd : (l₁.map Prod.fst).Nodup) :
    List.insertionSort keyLE l₁ = List.insertionSort keyLE l₂ := by
  have hperm : (List.insertionSort keyLE l₁).Perm (List.insertionSort keyLE l₂) :=
    (List.perm_insertionSort keyLE l₁).trans (hp.trans (List.perm_insertionSort keyLE l₂).symm)
  have hnd₁ : ((List.insertionSort keyLE l₁).map Prod.fst).Nodup :=
    (((List.perm_insertionSort keyLE l₁).map Prod.fst).nodup_iff).mpr hnd
  have hnd₂ : ((List.insertionSort keyLE l₂).map Prod.fst).Nodup :=
    ((hperm.map Prod.fst).nodup_iff).mp hnd₁
  exact List.eq_of_perm_of_sorted hperm
    (sorted_keyLT_of_sorted_nodup (List.sorted_insertionSort keyLE l₁) hnd₁)
    (sorted_keyLT_of_sorted_nodup (List.sorted_insertionSort keyLE l₂) hnd₂)

/-- Logically equal well-formed values have the same canonical form. -/
theorem canonJson_eq_of_equiv : ∀ {j₁ j₂ : Json}, JEquiv j₁ j₂ →
    JsonWF j₁ → JsonWF j₂ → canonJson j₁ = canonJson j₂ := by
  intro j₁ j₂ he
  induction he with
  | null => intro _ _; rfl
  | bool b => intro _ _; rfl
  | int n => intro _ _; rfl
  | str s => intro _ _; rfl
  | arrNil => intro _ _; rfl
  | @arrCons x y xs ys hxy hxs ihv ihs =>
      intro h₁ h₂
      cases h₁ with | arr hwf₁ =>
      cases h₂ with | arr hwf₂ =>
      have e1 : canonJson x = canonJson y :=
        ihv (hwf₁ x (List.mem_cons_self x xs)) (hwf₂ y (List.mem_cons_self y ys))
      have e2 : xs.map canonJson = ys.map canonJson := by
        have e := ihs (JsonWF.arr fun z hz => hwf₁ z (List.mem_cons_of_mem x hz))
          (JsonWF.arr fun z hz => hwf₂ z (List.mem_cons_of_mem y hz))
        rw [canonJson_arr, canonJson_arr] at e
        exact Json.arr.inj e
      rw [canonJson_arr, canonJson_arr, List.map_cons, List.map_cons, e1, e2]
  | objNil => intro _ _; rfl
  | @objCons k v₁ v₂ kvs l₁ l₂ hv hrest ihv ihrest =>
      intro h₁ h₂
      cases h₁ with | obj hnd₁ hwf₁ =>
      cases h₂ with | obj hnd₂ hwf₂ =>
      have hsub : (l₁ ++ l₂).Sublist (l₁ ++ (k, v₂) :: l₂) :=
        List.Sublist.append_left (List.sublist_cons_self (k, v₂) l₂) l₁
      have ev : canonJson v₁ = canonJson v₂ :=
        ihv (hwf₁ (k, v₁) (List.mem_cons_self _ _))
          (hwf₂ (k, v₂) (List.mem_append_right l₁ (List.mem_cons_self _ _)))
      have erest : canonJson (Json.obj kvs) = canonJson (Json.obj (l₁ ++ l₂)) := by
        apply ihrest
        · exact JsonWF.obj (by
            rw [List.map_cons] at hnd₁
            exact hnd₁.of_cons) (fun kv hkv => hwf₁ kv (List.mem_cons_of_mem _ hkv))
        · exact JsonWF.obj ((hsub.map Prod.fst).nodup hnd₂)
            (fun kv hkv => hwf₂ kv (hsub.subset hkv))
      have erest2 : List.insertionSort keyLE
            (kvs.map (fun kv => (kv.1, canonJson kv.2))) =
          List.insertionSort keyLE
            ((l₁ ++ l₂).map (fun kv => (kv.1, canonJson kv.2))) := by
        rw [canonJson_obj, canonJson_obj] at erest
        exact Json.obj.inj erest
      have hpermA : (kvs.map (fun kv => (kv.1, canonJson kv.2))).Perm
          ((l₁ ++ l₂).map (fun kv => (kv.1, canonJson kv.2))) :=
        ((List.perm_insertionSort keyLE _).symm.trans
          (erest2 ▸ List.perm_insertionSort keyLE _)).symm.symm
      have hpermB : ((k, canonJson v₁) :: kvs.map (fun kv => (kv.1, canonJson kv.2))).Perm
          (l₁.map (fun kv => (kv.1, canonJson kv.2)) ++
            (k, canonJson v₂) :: l₂.map (fun kv => (kv.1, canonJson kv.2))) := by
        rw [ev]
        refine List.Perm.trans (List.Perm.cons _ ?_) List.perm_middle.symm
        rw [← List.map_append]
        exact hpermA
      have hndL : (((k, canonJson v₁) ::
          kvs.map (fun kv => (kv.1, canonJson kv.2))).map Prod.fst).Nodup := by
        have hfst : (kvs.map (fun kv => (kv.1, canonJson kv.2))).map Prod.fst =
            kvs.map Prod.fst := by
          rw [List.map_map]
          rfl
        rw [List.map_cons, hfst]
        exact hnd₁
      rw [canonJson_obj, canonJson_obj]
      congr 1
      have hmapL : ((k, v₁) :: kvs).map (fun kv => (kv.1, canonJson kv.2)) =
          (k, canonJson v₁) :: kvs.map (fun kv => (kv.1, canonJson kv.2)) := by
        rw [List.map_cons]
      have hmapR : (l₁ ++ (k, v₂) :: l₂).map (fun kv => (kv.1, canonJson kv.2)) =
          l₁.map (fun kv => (kv.1, canonJson kv.2)) ++
            (k, canonJson v₂) :: l₂.map (fun kv => (kv.1, canonJson kv.2)) := by
        rw [List.map_append, List.map_cons]
      rw [hmapL, hmapR]
      exact insertionSort_keyLE_eq_of_perm hpermB hndL

/-- C8: `stable_hash` is invariant under re-ordering of object keys at any
depth — logically equal mappings (same key sets, equivalent values, any
insertion order) canonicalize to the same serialization, so any digest of it
is equal. -/
theorem c8_stable_hash_order_invariant (digest : String → String) {j₁ j₂ : Json}
    (h₁ : JsonWF j₁) (h₂ : JsonWF j₂) (he : JEquiv j₁ j₂) :
    stable_hash digest j₁ = stable_hash digest j₂ := by
  unfold stable_hash
  rw [canonJson_eq_of_equiv he h₁ h₂]

/-- Witness for `c8_stable_hash_order_invariant` on
`{"a": 1, "b": 2}` vs `{"b": 2, "a": 1}`. -/
theorem c8_stable_hash_order_invariant_witness :
    stable_hash id (Json.obj [("a", Json.int 1), ("b", Json.int 2)]) =
      stable_hash id (Json.obj [("b", Json.int 2), ("a", Json.int 1)]) :=
  c8_stable_hash_order_invariant id
    (JsonWF.obj (by simp) (by
      intro kv hkv
      fin_cases hkv <;> exact JsonWF.int _))
    (JsonWF.obj (by simp) (by
      intro kv hkv
      fin_cases hkv <;> exact JsonWF.int _))
    (JEquiv.objCons (JEquiv.int 1)
      (JEquiv.objCons (JEquiv.int 2) JEquiv.objNil :
        JEquiv (Json.obj [("b", Json.int 2)]) (Json.obj ([] ++ ("b", Json.int 2) :: []))) :
      JEquiv (Json.obj [("a", Json.int 1), ("b", Json.int 2)])
        (Json.obj ([("b", Json.int 2)] ++ ("a", Json.int 1) :: [])))
